import Mathlib

/-!
# discord1111resolver: DNS request execution

A shallow embedding of `pkg/dnsrequester.go`: the constants, the response code
table, `validateDNSResponseCode` and `executeDNSRequest`.

Go strings are modelled by `String` (sequences of Unicode scalar values, i.e.
valid UTF-8), Go's `int` response code by `Int`, `uint16` by `Nat`, errors by
the text `err.Error()` returns.  The collaborators that live outside the
repository (the IDNA transformation, the DNS client, the rendering of a
`time.Duration`) are fields of an environment `Env`; the calls made on the DNS
client are recorded in the outcome so that "how often was the transport
invoked" is observable.  Logging is not modelled.
-/

namespace Discord1111Resolver

/-! ## Constants of the source file -/

/-- Address of the upstream resolver (constant `dNSServer`). -/
def dNSServer : String := "1.1.1.1:853"

/-- Format of the fallback message (constant `unknownResponseCodeFormat`). -/
def unknownResponseCodeFormat : String := "unknown response code (%d)"

/-- Format of the footer text (constant `dNSDurationFormat`). -/
def dNSDurationFormat : String := "Got answer in %v."

/-! ## Constants of `github.com/miekg/dns` used by the source -/

/-- Response code `dns.RcodeSuccess`. -/
def RcodeSuccess : Int := 0

/-- Response code `dns.RcodeFormatError`. -/
def RcodeFormatError : Int := 1

/-- Response code `dns.RcodeServerFailure`. -/
def RcodeServerFailure : Int := 2

/-- Response code `dns.RcodeNameError`. -/
def RcodeNameError : Int := 3

/-- Question class `dns.ClassINET`. -/
def ClassINET : Nat := 1

/-- The map `dNSResponseCodeMessages`, as its list of key/value pairs. -/
def dNSResponseCodeMessages : List (Int × String) :=
  [ (RcodeFormatError, "Format error"),
    (RcodeServerFailure, "Server failure"),
    (RcodeNameError, "Non-Existent domain") ]

/-! ## The pieces of the Go standard library the source calls -/

/-- Worker of `Sprintf1`: copies the format and puts `arg` in place of the first
occurrence of `%` followed by `verb`. -/
def substVerb (verb : Char) (arg : List Char) : List Char → List Char
  | [] => []
  | c :: tail =>
    match tail with
    | [] => [c]
    | v :: rest =>
      if c = '%' ∧ v = verb then arg ++ rest else c :: substVerb verb arg tail

/-- The calls `fmt.Sprintf(format, x)` of the source: one argument, one verb, the
argument already rendered as text. -/
def Sprintf1 (format : String) (verb : Char) (arg : String) : String :=
  String.mk (substVerb verb arg.data format.data)

/-- Rendering of an `int` under the verb `%d`: decimal digits, with a leading
minus sign for a negative number. -/
def formatInt (n : Int) : String :=
  if n < 0 then "-" ++ Nat.repr n.natAbs else Nat.repr n.natAbs

/-- The Unicode tables of the Go runtime that are consulted for runes outside the
range handled by a direct comparison. -/
structure UnicodeTables where
  /-- Table lookup of `strconv.IsPrint`, consulted for runes above U+00FF. -/
  IsPrint : Char → Bool
  /-- Table lookup of `unicode.ToUpper`, consulted for runes above U+007F. -/
  ToUpper : Char → Char

/-- Go's `strconv.IsPrint`: the Latin-1 fast path is decided by comparison, the
rest by the tables. -/
def strconvIsPrint (u : UnicodeTables) (r : Char) : Bool :=
  if r.toNat ≤ 0xFF then
    if 0x20 ≤ r.toNat ∧ r.toNat ≤ 0x7E then true
    else if 0xA1 ≤ r.toNat ∧ r.toNat ≤ 0xFF then r.toNat != 0xAD
    else false
  else u.IsPrint r

/-- The digit table `lowerhex` of `strconv`, applied to `n % 16`. -/
def lowerhex (n : Nat) : Char :=
  ("0123456789abcdef".data).getD (n % 16) '0'

/-- The loop `for s := start; s >= 0; s -= 4` of `appendEscapedRune`, emitting
`count` hexadecimal digits of `r`, most significant first. -/
def hexDigits (r : Nat) : Nat → List Char
  | 0 => []
  | count + 1 => lowerhex (r / 16 ^ count) :: hexDigits r count

/-- The character U+005C, which starts every escape sequence. -/
def backslash : Char := Char.ofNat 92

/-- The character U+0022, which delimits a quoted string. -/
def doubleQuote : Char := Char.ofNat 34

/-- Go's `appendEscapedRune` for `strconv.Quote` (quote character U+0022, neither
ASCII-only nor graphic-only), on a valid rune. -/
def escapedRune (u : UnicodeTables) (r : Char) : List Char :=
  if r = doubleQuote ∨ r = backslash then [backslash, r]
  else if strconvIsPrint u r then [r]
  else if r.toNat = 7 then [backslash, 'a']
  else if r.toNat = 8 then [backslash, 'b']
  else if r.toNat = 12 then [backslash, 'f']
  else if r.toNat = 10 then [backslash, 'n']
  else if r.toNat = 13 then [backslash, 'r']
  else if r.toNat = 9 then [backslash, 't']
  else if r.toNat = 11 then [backslash, 'v']
  else if r.toNat < 0x20 ∨ r.toNat = 0x7F then backslash :: 'x' :: hexDigits r.toNat 2
  else if r.toNat < 0x10000 then backslash :: 'u' :: hexDigits r.toNat 4
  else backslash :: 'U' :: hexDigits r.toNat 8

/-- Go's `strconv.Quote`: the string between double quotes, every rune escaped
by `escapedRune`. -/
def strconvQuote (u : UnicodeTables) (s : String) : String :=
  String.mk (doubleQuote :: (s.data.flatMap (escapedRune u) ++ [doubleQuote]))

/-- Go's `unicode.ToUpper` on one rune: ASCII letters by arithmetic, runes above
U+007F by the tables. -/
def unicodeToUpper (u : UnicodeTables) (r : Char) : Char :=
  if r.toNat ≤ 0x7F then
    if 'a'.toNat ≤ r.toNat ∧ r.toNat ≤ 'z'.toNat then Char.ofNat (r.toNat - 32) else r
  else u.ToUpper r

/-- Go's `strings.ToUpper`: every rune mapped by `unicode.ToUpper`. -/
def stringsToUpper (u : UnicodeTables) (s : String) : String :=
  String.mk (s.data.map (unicodeToUpper u))

/-! ## Data of `github.com/miekg/dns` and `github.com/bwmarrin/discordgo` -/

/-- A `dns.Question`. -/
structure Question where
  Name : String
  Qtype : Nat
  Qclass : Nat
deriving DecidableEq, Repr

/-- A resource record `dns.RR`, seen through the two methods the source calls. -/
structure RR where
  /-- Result of `Header().Name`. -/
  HeaderName : String
  /-- Result of `String()`. -/
  Text : String
deriving DecidableEq, Repr

/-- A `dns.Msg`: the header fields and sections the source reads or writes; all
other fields keep their zero value. -/
structure Msg where
  RecursionDesired : Bool := false
  Rcode : Int := 0
  Question : List Question := []
  Answer : List RR := []
deriving DecidableEq, Repr

/-- A `discordgo.MessageEmbedField`. -/
structure MessageEmbedField where
  Name : String := ""
  Value : String := ""
  Inline : Bool := false
deriving DecidableEq, Repr

/-- A `discordgo.MessageEmbedFooter`. -/
structure MessageEmbedFooter where
  Text : String := ""
  IconURL : String := ""
  ProxyIconURL : String := ""
deriving DecidableEq, Repr

/-- A `discordgo.MessageEmbed`: the two fields the source writes, and two it
leaves alone. -/
structure MessageEmbed where
  Title : String := ""
  Description : String := ""
  Footer : Option MessageEmbedFooter := none
  Fields : List MessageEmbedField := []
deriving DecidableEq, Repr

/-- What `DNSClient.Exchange` returns: an error (with whatever response came
along, possibly none) or a response without error; both with the round trip
time in nanoseconds.  The client returns a message whenever it returns no
error. -/
inductive ExchangeResult where
  | failed (response : Option Msg) (duration : Int) (err : String)
  | replied (response : Msg) (duration : Int)
deriving DecidableEq, Repr

/-- The result with its round trip time forgotten. -/
def ExchangeResult.eraseDuration : ExchangeResult → ExchangeResult
  | .failed response _ err => .failed response 0 err
  | .replied response _ => .replied response 0

/-- The collaborators of `executeDNSRequest`. -/
structure Env where
  /-- Unicode tables of the Go runtime. -/
  unicode : UnicodeTables
  /-- The transformation `idna.Punycode.ToASCII`: the returned string and, on
  failure, the text of the error. -/
  ToASCII : String → String × Option String
  /-- The operation `resolveHandler.DNSClient.Exchange`. -/
  Exchange : Msg → String → ExchangeResult
  /-- Rendering of a `time.Duration` under the verb `%v`. -/
  durationString : Int → String

/-- Go's `utf8.RuneLen`: the number of bytes of the UTF-8 encoding of a rune. -/
def runeLen (r : Char) : Nat :=
  if r.toNat < 0x80 then 1
  else if r.toNat < 0x800 then 2
  else if r.toNat < 0x10000 then 3
  else 4

/-- The function `dns.IsFqdn` of `github.com/miekg/dns`, read on the reversed
string.  A name that is empty or does not end in a dot is not fully qualified.
Otherwise the dot is removed; if nothing is left or the rest does not end in a
backslash the name is fully qualified.  Otherwise the library takes the byte
index `i` of the last rune that is no backslash (-1 when there is none) and
answers `(len - i) % 2 != 0`; `len - i` is the number of trailing backslashes
plus the byte width of that rune (plus 1 when there is none). -/
def IsFqdn (s : String) : Bool :=
  match s.data.reverse with
  | [] => false
  | last :: before =>
    if last ≠ '.' then false
    else
      match before with
      | [] => true
      | c :: _ =>
        if c ≠ backslash then true
        else
          let escapes := (before.takeWhile (fun r => r == backslash)).length
          let width :=
            match before.dropWhile (fun r => r == backslash) with
            | [] => 1
            | r :: _ => runeLen r
          (escapes + width) % 2 != 0

/-- The function `dns.Fqdn` of `github.com/miekg/dns`: the identity on a fully
qualified name, otherwise the name followed by a dot. -/
def Fqdn (s : String) : String :=
  if IsFqdn s then s else s ++ "."

/-- The number of backslashes that stand immediately before the last character
of the string. -/
def escapesBeforeLast (s : String) : Nat :=
  ((s.data.reverse.drop 1).takeWhile (fun r => r == backslash)).length

/-- The domain `example.com` followed by a backslash and a dot: its final dot is
escaped. -/
def escapedDotDomain : String :=
  "example.com" ++ String.mk [backslash, '.']

/-! ## The functions of the source file -/

/-- The function `validateDNSResponseCode`. -/
def validateDNSResponseCode (dNSResponseCode : Int) : String × Bool :=
  if dNSResponseCode = RcodeSuccess then ("", true)
  else
    match dNSResponseCodeMessages.lookup dNSResponseCode with
    | some errorMessage => (errorMessage, false)
    | none => (Sprintf1 unknownResponseCodeFormat 'd' (formatInt dNSResponseCode), false)

/-- The message `executeDNSRequest` builds from the encoded domain and the record
type. -/
def newMessage (domain : String) (dNSMessageType : Nat) : Msg :=
  { Question := [{ Name := Fqdn domain, Qtype := dNSMessageType, Qclass := ClassINET }],
    RecursionDesired := true }

/-- What a call of `executeDNSRequest` leaves behind: the returned flag, the embed
after the call, and the `Exchange` calls it made, in order. -/
structure Outcome where
  ok : Bool
  messageEmbed : MessageEmbed
  exchanged : List (Msg × String)
deriving DecidableEq, Repr

/-- The method `executeDNSRequest`. -/
def executeDNSRequest (env : Env) (messageEmbed : MessageEmbed) (dNSMessageType : Nat)
    (dNSMessageTypeString : String) (domain : String) : Outcome :=
  match env.ToASCII domain with
  | (_, some err) =>
    { ok := false,
      messageEmbed := { messageEmbed with Fields := [{
        Name := "Unknown error while encoding the domain name using punycode:",
        Value := strconvQuote env.unicode err,
        Inline := true }] },
      exchanged := [] }
  | (domain, none) =>
    let message := newMessage domain dNSMessageType
    match env.Exchange message dNSServer with
    | .failed _ _ err =>
      { ok := false,
        messageEmbed := { messageEmbed with Fields := [{
          Name := "Unknown error while executing the DNS request:",
          Value := strconvQuote env.unicode err,
          Inline := true }] },
        exchanged := [(message, dNSServer)] }
    | .replied response duration =>
      match validateDNSResponseCode response.Rcode with
      | (errorMessage, false) =>
        { ok := false,
          messageEmbed := { messageEmbed with Fields := [{
            Name := "The DNS server returned an non-successful response code:",
            Value := errorMessage,
            Inline := true }] },
          exchanged := [(message, dNSServer)] }
      | (_, true) =>
        if 0 < response.Answer.length then
          { ok := true,
            messageEmbed := { messageEmbed with
              Fields := response.Answer.map
                (fun answer => { Name := answer.HeaderName, Value := answer.Text }),
              Footer := some { Text := Sprintf1 dNSDurationFormat 'v' (env.durationString duration) } },
            exchanged := [(message, dNSServer)] }
        else
          { ok := false,
            messageEmbed := { messageEmbed with Fields := [{
              Name := "Could not find DNS entry for question type:",
              Value := strconvQuote env.unicode (stringsToUpper env.unicode dNSMessageTypeString),
              Inline := true }] },
            exchanged := [(message, dNSServer)] }

/-! ## A concrete environment for evaluation -/

/-- Tables that treat every rune outside the directly decided ranges as
printable and without upper case form. -/
def plainTables : UnicodeTables :=
  { IsPrint := fun _ => true, ToUpper := fun r => r }

/-- A stub environment: `ToASCII` fails with `encodeErr` when given, `Exchange`
always answers `result`. -/
def stubEnv (encodeErr : Option String) (result : ExchangeResult) : Env :=
  { unicode := plainTables,
    ToASCII := fun domain => (domain, encodeErr),
    Exchange := fun _ _ => result,
    durationString := fun d => Nat.repr d.natAbs ++ "ns" }

/-- The classification table of the specification: the displayed message of a
response code other than Success. -/
def specClassificationMessage (code : Int) : String :=
  if code = 1 then "Format error"
  else if code = 2 then "Server failure"
  else if code = 3 then "Non-Existent domain"
  else "unknown response code (" ++ formatInt code ++ ")"

/-- The display entry `executeDNSRequest` creates for one answer record. -/
def answerField (answer : RR) : MessageEmbedField :=
  { Name := answer.HeaderName, Value := answer.Text, Inline := false }

/-- The titles of the four error and status fields `executeDNSRequest` writes. -/
def statusTitles : List String :=
  [ "Unknown error while encoding the domain name using punycode:",
    "Unknown error while executing the DNS request:",
    "The DNS server returned an non-successful response code:",
    "Could not find DNS entry for question type:" ]

/-! ## Auxiliary facts -/

theorem Sprintf1_unknownResponseCodeFormat (arg : String) :
    Sprintf1 unknownResponseCodeFormat 'd' arg = "unknown response code (" ++ arg ++ ")" := by
  cases arg with
  | mk cs =>
    apply String.ext
    simp [Sprintf1, unknownResponseCodeFormat, substVerb, String.data_append]

theorem Sprintf1_dNSDurationFormat (arg : String) :
    Sprintf1 dNSDurationFormat 'v' arg = "Got answer in " ++ arg ++ "." := by
  cases arg with
  | mk cs =>
    apply String.ext
    simp [Sprintf1, dNSDurationFormat, substVerb, String.data_append]

theorem validateDNSResponseCode_zero : validateDNSResponseCode 0 = ("", true) := by
  decide

theorem validateDNSResponseCode_nonzero (code : Int) (h : code ≠ 0) :
    validateDNSResponseCode code = (specClassificationMessage code, false) := by
  unfold validateDNSResponseCode specClassificationMessage
  simp only [RcodeSuccess, if_neg h]
  by_cases h1 : code = 1
  · subst h1; decide
  by_cases h2 : code = 2
  · subst h2; decide
  by_cases h3 : code = 3
  · subst h3; decide
  have e1 : (code == 1) = false := by simpa using h1
  have e2 : (code == 2) = false := by simpa using h2
  have e3 : (code == 3) = false := by simpa using h3
  simp [dNSResponseCodeMessages, List.lookup, RcodeFormatError, RcodeServerFailure,
    RcodeNameError, e1, e2, e3, h1, h2, h3, Sprintf1_unknownResponseCodeFormat]

theorem executeDNSRequest_replied (env : Env) (messageEmbed : MessageEmbed)
    (dNSMessageType : Nat) (dNSMessageTypeString domain encoded : String)
    (response : Msg) (duration : Int)
    (hEncode : env.ToASCII domain = (encoded, none))
    (hExchange : env.Exchange (newMessage encoded dNSMessageType) dNSServer
      = .replied response duration) :
    executeDNSRequest env messageEmbed dNSMessageType dNSMessageTypeString domain =
      if response.Rcode = 0 then
        if 0 < response.Answer.length then
          { ok := true,
            messageEmbed := { messageEmbed with
              Fields := response.Answer.map answerField,
              Footer := some { Text := "Got answer in " ++ env.durationString duration ++ "." } },
            exchanged := [(newMessage encoded dNSMessageType, dNSServer)] }
        else
          { ok := false,
            messageEmbed := { messageEmbed with Fields := [{
              Name := "Could not find DNS entry for question type:",
              Value := strconvQuote env.unicode (stringsToUpper env.unicode dNSMessageTypeString),
              Inline := true }] },
            exchanged := [(newMessage encoded dNSMessageType, dNSServer)] }
      else
        { ok := false,
          messageEmbed := { messageEmbed with Fields := [{
            Name := "The DNS server returned an non-successful response code:",
            Value := specClassificationMessage response.Rcode,
            Inline := true }] },
          exchanged := [(newMessage encoded dNSMessageType, dNSServer)] } := by
  unfold executeDNSRequest
  simp only [hEncode, hExchange]
  by_cases hc : response.Rcode = 0
  · simp only [hc, validateDNSResponseCode_zero, if_true, Sprintf1_dNSDurationFormat]
    rfl
  · simp only [validateDNSResponseCode_nonzero _ hc, if_neg hc]

theorem executeDNSRequest_failed (env : Env) (messageEmbed : MessageEmbed)
    (dNSMessageType : Nat) (dNSMessageTypeString domain encoded : String)
    (response : Option Msg) (duration : Int) (err : String)
    (hEncode : env.ToASCII domain = (encoded, none))
    (hExchange : env.Exchange (newMessage encoded dNSMessageType) dNSServer
      = .failed response duration err) :
    executeDNSRequest env messageEmbed dNSMessageType dNSMessageTypeString domain =
      { ok := false,
        messageEmbed := { messageEmbed with Fields := [{
          Name := "Unknown error while executing the DNS request:",
          Value := strconvQuote env.unicode err,
          Inline := true }] },
        exchanged := [(newMessage encoded dNSMessageType, dNSServer)] } := by
  simp [executeDNSRequest, hEncode, hExchange]

theorem executeDNSRequest_rejected (env : Env) (messageEmbed : MessageEmbed)
    (dNSMessageType : Nat) (dNSMessageTypeString domain returned err : String)
    (hEncode : env.ToASCII domain = (returned, some err)) :
    executeDNSRequest env messageEmbed dNSMessageType dNSMessageTypeString domain =
      { ok := false,
        messageEmbed := { messageEmbed with Fields := [{
          Name := "Unknown error while encoding the domain name using punycode:",
          Value := strconvQuote env.unicode err,
          Inline := true }] },
        exchanged := [] } := by
  simp [executeDNSRequest, hEncode]

theorem ite_length_pos {α : Type} (c : Prop) [Decidable c] (a b : List α)
    (ha : 1 ≤ a.length) (hb : 1 ≤ b.length) : 1 ≤ (if c then a else b).length := by
  by_cases h : c
  · rw [if_pos h]; exact ha
  · rw [if_neg h]; exact hb

theorem escapedRune_length_pos (u : UnicodeTables) (r : Char) :
    1 ≤ (escapedRune u r).length := by
  unfold escapedRune
  repeat (first
    | exact Nat.succ_le_succ (Nat.zero_le _)
    | apply ite_length_pos)

theorem flatMap_escapedRune_length (u : UnicodeTables) (cs : List Char) :
    cs.length ≤ (cs.flatMap (escapedRune u)).length := by
  induction cs with
  | nil => simp
  | cons c rest ih =>
    have h := escapedRune_length_pos u c
    simp only [List.flatMap_cons, List.length_append, List.length_cons]
    omega

theorem strconvQuote_length (u : UnicodeTables) (s : String) :
    s.length + 2 ≤ (strconvQuote u s).length := by
  have h := flatMap_escapedRune_length u s.data
  simp only [strconvQuote, String.length, List.length_cons, List.length_append, List.length_nil]
  simp only [String.length] at h
  omega

theorem strconvQuote_ne (u : UnicodeTables) (s : String) : strconvQuote u s ≠ s := by
  intro h
  have hLen := strconvQuote_length u s
  rw [h] at hLen
  omega

theorem reverse_of_getLast (s : String) (c : Char) (h : s.data.getLast? = some c) :
    ∃ before, s.data.reverse = c :: before := by
  rw [← List.head?_reverse] at h
  exact List.head?_eq_some_iff.mp h

theorem IsFqdn_getLast (s : String) (h : IsFqdn s = true) : s.data.getLast? = some '.' := by
  rw [← List.head?_reverse]
  unfold IsFqdn at h
  cases hr : s.data.reverse with
  | nil => rw [hr] at h; simp at h
  | cons last before =>
    rw [hr] at h
    by_cases hl : last = '.'
    · simp [hl]
    · simp [hl] at h

theorem Fqdn_getLast (s : String) : (Fqdn s).data.getLast? = some '.' := by
  unfold Fqdn
  by_cases h : IsFqdn s = true
  · rw [if_pos h]; exact IsFqdn_getLast s h
  · rw [if_neg h]; simp [String.data_append]

theorem Fqdn_of_no_dot (s : String) (h : s.data.getLast? ≠ some '.') : Fqdn s = s ++ "." := by
  unfold Fqdn
  have hNot : ¬ IsFqdn s = true := fun hF => h (IsFqdn_getLast s hF)
  rw [if_neg hNot]

theorem IsFqdn_of_no_escape (s : String) (hDot : s.data.getLast? = some '.')
    (hNone : escapesBeforeLast s = 0) : IsFqdn s = true := by
  obtain ⟨before, hr⟩ := reverse_of_getLast s '.' hDot
  unfold escapesBeforeLast at hNone
  unfold IsFqdn
  rw [hr] at hNone ⊢
  cases before with
  | nil => simp
  | cons c rest =>
    by_cases hc : c = backslash
    · subst hc
      simp [List.takeWhile_cons] at hNone
    · simp [hc]

theorem runeLen_ascii (r : Char) (h : r.toNat < 128) : runeLen r = 1 := by
  unfold runeLen
  rw [if_pos h]

theorem IsFqdn_ascii (s : String) (hAscii : ∀ c ∈ s.data, c.toNat < 128)
    (hDot : s.data.getLast? = some '.') :
    IsFqdn s = decide (escapesBeforeLast s % 2 = 0) := by
  obtain ⟨before, hr⟩ := reverse_of_getLast s '.' hDot
  have hMem : ∀ c ∈ before, c.toNat < 128 := by
    intro c hc
    apply hAscii c
    rw [← List.mem_reverse, hr]
    exact List.mem_cons_of_mem _ hc
  unfold escapesBeforeLast IsFqdn
  rw [hr]
  cases before with
  | nil => simp
  | cons c rest =>
    by_cases hc : c = backslash
    · subst hc
      have hWidth : (match List.dropWhile (fun r => r == backslash) (backslash :: rest) with
          | [] => 1
          | r :: _ => runeLen r) = 1 := by
        cases hd : List.dropWhile (fun r => r == backslash) (backslash :: rest) with
        | nil => rfl
        | cons r tail =>
          have hIn : r ∈ List.dropWhile (fun r => r == backslash) (backslash :: rest) := by
            rw [hd]; exact List.mem_cons_self _ _
          exact runeLen_ascii r
            (hMem r ((List.dropWhile_sublist _).subset hIn))
      simp only [List.drop_one, List.tail_cons, ne_eq, not_true_eq_false, if_false,
        reduceCtorEq, not_false_eq_true, hWidth]
      generalize (List.takeWhile (fun r => r == backslash) (backslash :: rest)).length = k
      by_cases hk : k % 2 = 0
      · have : (k + 1) % 2 = 1 := by omega
        simp [hk, this]
      · have : (k + 1) % 2 = 0 := by omega
        simp [hk, this]
    · simp [hc, List.takeWhile_cons]

/-- Every run of `executeDNSRequest` ends in one of its five exits. -/
theorem executeDNSRequest_cases (env : Env) (dNSMessageType : Nat) (domain : String) :
    (∃ returned err, env.ToASCII domain = (returned, some err)) ∨
    (∃ encoded response duration err, env.ToASCII domain = (encoded, none) ∧
      env.Exchange (newMessage encoded dNSMessageType) dNSServer
        = .failed response duration err) ∨
    (∃ encoded response duration, env.ToASCII domain = (encoded, none) ∧
      env.Exchange (newMessage encoded dNSMessageType) dNSServer
        = .replied response duration) := by
  rcases hE : env.ToASCII domain with ⟨encoded, _ | err⟩
  · rcases hX : env.Exchange (newMessage encoded dNSMessageType) dNSServer with
      ⟨response, duration, err⟩ | ⟨response, duration⟩
    · exact Or.inr (Or.inl ⟨encoded, response, duration, err, rfl, hX⟩)
    · exact Or.inr (Or.inr ⟨encoded, response, duration, rfl, hX⟩)
  · exact Or.inl ⟨encoded, err, rfl⟩

/-! ## The claims -/

/-- C6: `validateDNSResponseCode` is a total function on all integers (negative
ones and ones above 3 included); it reports ok exactly when the code is 0, and
for every other code it reports not ok together with a non-empty message. -/
theorem validateDNSResponseCode_total (code : Int) :
    ((validateDNSResponseCode code).2 = true ↔ code = 0) ∧
    (code ≠ 0 → (validateDNSResponseCode code).2 = false ∧
      (validateDNSResponseCode code).1 ≠ "" ∧
      (validateDNSResponseCode code).1 = specClassificationMessage code) := by
  by_cases h : code = 0
  · subst h
    simp [validateDNSResponseCode_zero]
  · rw [validateDNSResponseCode_nonzero code h]
    refine ⟨by simp [h], fun _ => ⟨rfl, ?_, rfl⟩⟩
    intro hEmpty
    have hLen := congrArg String.length hEmpty
    unfold specClassificationMessage at hLen
    split_ifs at hLen
    · revert hLen; decide
    · revert hLen; decide
    · revert hLen; decide
    · simp only [String.length_append] at hLen
      have hPos : ")".length = 1 := by decide
      have hZero : "".length = 0 := by decide
      omega

/-- Witness of C6 at the negative code -7, which is outside the table. -/
theorem validateDNSResponseCode_total_witness :
    (validateDNSResponseCode (-7)).2 = false ∧
    (validateDNSResponseCode (-7)).1 ≠ "" ∧
    (validateDNSResponseCode (-7)).1 = "unknown response code (-7)" :=
  (validateDNSResponseCode_total (-7)).2 (by decide)

/-- C2: when normalization succeeds and the resolver replies with a non-zero
response code, `executeDNSRequest` returns false and the embed holds exactly one
field, whose value is the message of the classification table for that code,
whatever answers the reply carries. -/
theorem executeDNSRequest_nonSuccessCode (env : Env) (messageEmbed : MessageEmbed)
    (dNSMessageType : Nat) (dNSMessageTypeString domain encoded : String)
    (response : Msg) (duration : Int)
    (hEncode : env.ToASCII domain = (encoded, none))
    (hExchange : env.Exchange (newMessage encoded dNSMessageType) dNSServer
      = .replied response duration)
    (hCode : response.Rcode ≠ 0) :
    (executeDNSRequest env messageEmbed dNSMessageType dNSMessageTypeString domain).ok = false ∧
    (executeDNSRequest env messageEmbed dNSMessageType dNSMessageTypeString domain).messageEmbed.Fields
      = [{ Name := "The DNS server returned an non-successful response code:",
           Value := specClassificationMessage response.Rcode,
           Inline := true }] ∧
    (response.Rcode = 1 → specClassificationMessage response.Rcode = "Format error") ∧
    (response.Rcode = 2 → specClassificationMessage response.Rcode = "Server failure") ∧
    (response.Rcode = 3 → specClassificationMessage response.Rcode = "Non-Existent domain") ∧
    (response.Rcode ≠ 1 → response.Rcode ≠ 2 → response.Rcode ≠ 3 →
      specClassificationMessage response.Rcode
        = "unknown response code (" ++ formatInt response.Rcode ++ ")") := by
  rw [executeDNSRequest_replied env messageEmbed dNSMessageType dNSMessageTypeString domain
    encoded response duration hEncode hExchange]
  rw [if_neg hCode]
  refine ⟨rfl, rfl, ?_, ?_, ?_, ?_⟩
  · intro h; rw [h]; decide
  · intro h; rw [h]; decide
  · intro h; rw [h]; decide
  · intro h1 h2 h3; simp [specClassificationMessage, h1, h2, h3]

/-- Witness of C2: the resolver answers code 3 (and carries an answer record all
the same); the embed ends with the single field "Non-Existent domain". -/
theorem executeDNSRequest_nonSuccessCode_witness :
    (executeDNSRequest (stubEnv none (.replied { Rcode := 3, Answer := [⟨"x.", "x. A 1.2.3.4"⟩] } 5))
      { Fields := [{ Name := "old" }] } 1 "a" "nonexistent-domain-xyz.invalid").ok = false ∧
    (executeDNSRequest (stubEnv none (.replied { Rcode := 3, Answer := [⟨"x.", "x. A 1.2.3.4"⟩] } 5))
      { Fields := [{ Name := "old" }] } 1 "a" "nonexistent-domain-xyz.invalid").messageEmbed.Fields
      = [{ Name := "The DNS server returned an non-successful response code:",
           Value := "Non-Existent domain", Inline := true }] :=
  have h := executeDNSRequest_nonSuccessCode
    (stubEnv none (.replied { Rcode := 3, Answer := [⟨"x.", "x. A 1.2.3.4"⟩] } 5))
    { Fields := [{ Name := "old" }] } 1 "a" "nonexistent-domain-xyz.invalid"
    "nonexistent-domain-xyz.invalid" { Rcode := 3, Answer := [⟨"x.", "x. A 1.2.3.4"⟩] } 5
    rfl rfl (by decide)
  ⟨h.1, h.2.1.trans (by rw [h.2.2.2.2.1 rfl])⟩

/-- C1: when normalization succeeds and the resolver replies with code 0 and
N ≥ 1 answer records, `executeDNSRequest` returns true and the embed holds
exactly N fields, field i having the owner name of answer i as name, the string
form of answer i as value and the inline hint false, whatever the embed held
before. -/
theorem executeDNSRequest_answers (env : Env) (messageEmbed : MessageEmbed)
    (dNSMessageType : Nat) (dNSMessageTypeString domain encoded : String)
    (response : Msg) (duration : Int)
    (hEncode : env.ToASCII domain = (encoded, none))
    (hExchange : env.Exchange (newMessage encoded dNSMessageType) dNSServer
      = .replied response duration)
    (hCode : response.Rcode = 0)
    (hAnswers : 1 ≤ response.Answer.length) :
    (executeDNSRequest env messageEmbed dNSMessageType dNSMessageTypeString domain).ok = true ∧
    (executeDNSRequest env messageEmbed dNSMessageType dNSMessageTypeString
      domain).messageEmbed.Fields.length = response.Answer.length ∧
    ∀ (i : Nat) (answer : RR), response.Answer[i]? = some answer →
      (executeDNSRequest env messageEmbed dNSMessageType dNSMessageTypeString
        domain).messageEmbed.Fields[i]?
        = some { Name := answer.HeaderName, Value := answer.Text, Inline := false } := by
  rw [executeDNSRequest_replied env messageEmbed dNSMessageType dNSMessageTypeString domain
    encoded response duration hEncode hExchange]
  have hPos : 0 < response.Answer.length := hAnswers
  rw [if_pos hCode, if_pos hPos]
  refine ⟨rfl, by simp, ?_⟩
  intro i answer hi
  simp [hi, answerField]

/-- Witness of C1: the scenario of the specification, one A record for the
domain example.com, on an embed that already held a field. -/
theorem executeDNSRequest_answers_witness :
    (executeDNSRequest
      (stubEnv none (.replied { Answer := [⟨"example.com.", "example.com. 300 IN A 93.184.216.34"⟩] } 5))
      { Fields := [{ Name := "old" }] } 1 "a" "example.com").ok = true ∧
    (executeDNSRequest
      (stubEnv none (.replied { Answer := [⟨"example.com.", "example.com. 300 IN A 93.184.216.34"⟩] } 5))
      { Fields := [{ Name := "old" }] } 1 "a" "example.com").messageEmbed.Fields.length = 1 ∧
    (executeDNSRequest
      (stubEnv none (.replied { Answer := [⟨"example.com.", "example.com. 300 IN A 93.184.216.34"⟩] } 5))
      { Fields := [{ Name := "old" }] } 1 "a" "example.com").messageEmbed.Fields[0]?
      = some { Name := "example.com.", Value := "example.com. 300 IN A 93.184.216.34",
               Inline := false } :=
  have h := executeDNSRequest_answers
    (stubEnv none (.replied { Answer := [⟨"example.com.", "example.com. 300 IN A 93.184.216.34"⟩] } 5))
    { Fields := [{ Name := "old" }] } 1 "a" "example.com" "example.com"
    { Answer := [⟨"example.com.", "example.com. 300 IN A 93.184.216.34"⟩] } 5
    rfl rfl rfl (by decide)
  ⟨h.1, h.2.1, h.2.2 0 _ rfl⟩

/-- C3, as stated, fails: with the label "aaaa", code 0 and no answers, the one
field of the embed has the value "AAAA" between double quotes (six characters),
not the uppercased label "AAAA" itself. -/
theorem executeDNSRequest_noAnswers_value_counterexample :
    (executeDNSRequest (stubEnv none (.replied { Rcode := 0, Answer := [] } 5))
      { } 28 "aaaa" "example.com").messageEmbed.Fields
      = [{ Name := "Could not find DNS entry for question type:",
           Value := String.mk [doubleQuote, 'A', 'A', 'A', 'A', doubleQuote],
           Inline := true }] ∧
    stringsToUpper plainTables "aaaa" = "AAAA" ∧
    (executeDNSRequest (stubEnv none (.replied { Rcode := 0, Answer := [] } 5))
      { } 28 "aaaa" "example.com").messageEmbed.Fields.map (fun field => field.Value)
      ≠ [stringsToUpper plainTables "aaaa"] := by
  decide

/-- C3, amended: when normalization succeeds and the resolver replies with code 0
and no answer records, `executeDNSRequest` returns false and the embed holds
exactly one field, whose value is the quoted form (`strconv.Quote`) of the
uppercased record type label and whose inline hint is true. -/
theorem executeDNSRequest_noAnswers (env : Env) (messageEmbed : MessageEmbed)
    (dNSMessageType : Nat) (dNSMessageTypeString domain encoded : String)
    (response : Msg) (duration : Int)
    (hEncode : env.ToASCII domain = (encoded, none))
    (hExchange : env.Exchange (newMessage encoded dNSMessageType) dNSServer
      = .replied response duration)
    (hCode : response.Rcode = 0)
    (hAnswers : response.Answer.length = 0) :
    (executeDNSRequest env messageEmbed dNSMessageType dNSMessageTypeString domain).ok = false ∧
    (executeDNSRequest env messageEmbed dNSMessageType dNSMessageTypeString
      domain).messageEmbed.Fields
      = [{ Name := "Could not find DNS entry for question type:",
           Value := strconvQuote env.unicode (stringsToUpper env.unicode dNSMessageTypeString),
           Inline := true }] := by
  rw [executeDNSRequest_replied env messageEmbed dNSMessageType dNSMessageTypeString domain
    encoded response duration hEncode hExchange]
  have hNot : ¬ 0 < response.Answer.length := by omega
  rw [if_pos hCode, if_neg hNot]
  exact ⟨rfl, rfl⟩

/-- Witness of amended C3: label "mx", code 0, no answers. -/
theorem executeDNSRequest_noAnswers_witness :
    (executeDNSRequest (stubEnv none (.replied { } 5))
      { Fields := [{ Name := "old" }] } 15 "mx" "example.com").ok = false ∧
    (executeDNSRequest (stubEnv none (.replied { } 5))
      { Fields := [{ Name := "old" }] } 15 "mx" "example.com").messageEmbed.Fields
      = [{ Name := "Could not find DNS entry for question type:",
           Value := strconvQuote plainTables (stringsToUpper plainTables "mx"),
           Inline := true }] :=
  executeDNSRequest_noAnswers (stubEnv none (.replied { } 5))
    { Fields := [{ Name := "old" }] } 15 "mx" "example.com" "example.com" { } 5
    rfl rfl rfl rfl

/-- C4: when the IDNA transformation returns an error, `executeDNSRequest` returns
false, the embed holds exactly one field (the encoding error title, the quoted
text of the error as value, inline hint true) and `Exchange` is not called. -/
theorem executeDNSRequest_encodingError (env : Env) (messageEmbed : MessageEmbed)
    (dNSMessageType : Nat) (dNSMessageTypeString domain returned err : String)
    (hEncode : env.ToASCII domain = (returned, some err)) :
    (executeDNSRequest env messageEmbed dNSMessageType dNSMessageTypeString domain).ok = false ∧
    (executeDNSRequest env messageEmbed dNSMessageType dNSMessageTypeString
      domain).messageEmbed.Fields
      = [{ Name := "Unknown error while encoding the domain name using punycode:",
           Value := strconvQuote env.unicode err,
           Inline := true }] ∧
    (executeDNSRequest env messageEmbed dNSMessageType dNSMessageTypeString
      domain).exchanged = [] := by
  simp [executeDNSRequest, hEncode]

/-- Witness of C4: the transformation rejects the domain; the stub resolver would
have answered, but is not asked. -/
theorem executeDNSRequest_encodingError_witness :
    (executeDNSRequest (stubEnv (some "idna: invalid label") (.replied { Answer := [⟨"x.", "x"⟩] } 5))
      { Fields := [{ Name := "old" }] } 1 "a" "xn--a").ok = false ∧
    (executeDNSRequest (stubEnv (some "idna: invalid label") (.replied { Answer := [⟨"x.", "x"⟩] } 5))
      { Fields := [{ Name := "old" }] } 1 "a" "xn--a").messageEmbed.Fields
      = [{ Name := "Unknown error while encoding the domain name using punycode:",
           Value := strconvQuote plainTables "idna: invalid label",
           Inline := true }] ∧
    (executeDNSRequest (stubEnv (some "idna: invalid label") (.replied { Answer := [⟨"x.", "x"⟩] } 5))
      { Fields := [{ Name := "old" }] } 1 "a" "xn--a").exchanged = [] :=
  executeDNSRequest_encodingError
    (stubEnv (some "idna: invalid label") (.replied { Answer := [⟨"x.", "x"⟩] } 5))
    { Fields := [{ Name := "old" }] } 1 "a" "xn--a" "xn--a" "idna: invalid label" rfl

/-- C5, as stated, fails: when the exchange fails with the error text "timeout",
the value of the one field is that text between double quotes, not the text
itself. -/
theorem executeDNSRequest_exchangeError_value_counterexample :
    (executeDNSRequest (stubEnv none (.failed none 5 "timeout"))
      { } 1 "a" "example.com").messageEmbed.Fields
      = [{ Name := "Unknown error while executing the DNS request:",
           Value := String.mk [doubleQuote, 't', 'i', 'm', 'e', 'o', 'u', 't', doubleQuote],
           Inline := true }] ∧
    (executeDNSRequest (stubEnv none (.failed none 5 "timeout"))
      { } 1 "a" "example.com").messageEmbed.Fields.map (fun field => field.Value)
      ≠ ["timeout"] := by
  decide

/-- C5, amended: when normalization succeeds and `Exchange` returns an error,
`executeDNSRequest` returns false, the embed holds exactly one field (the request
error title, the quoted form (`strconv.Quote`) of the error text as value, inline
hint true), and `Exchange` was called exactly once; the outcome depends neither
on the response that came with the error nor on the duration. -/
theorem executeDNSRequest_exchangeError (env : Env) (messageEmbed : MessageEmbed)
    (dNSMessageType : Nat) (dNSMessageTypeString domain encoded : String)
    (response : Option Msg) (duration : Int) (err : String)
    (hEncode : env.ToASCII domain = (encoded, none))
    (hExchange : env.Exchange (newMessage encoded dNSMessageType) dNSServer
      = .failed response duration err) :
    executeDNSRequest env messageEmbed dNSMessageType dNSMessageTypeString domain =
      { ok := false,
        messageEmbed := { messageEmbed with Fields := [{
          Name := "Unknown error while executing the DNS request:",
          Value := strconvQuote env.unicode err,
          Inline := true }] },
        exchanged := [(newMessage encoded dNSMessageType, dNSServer)] } ∧
    (executeDNSRequest env messageEmbed dNSMessageType dNSMessageTypeString
      domain).exchanged.length = 1 ∧
    strconvQuote env.unicode err ≠ err := by
  rw [executeDNSRequest_failed env messageEmbed dNSMessageType dNSMessageTypeString domain
    encoded response duration err hEncode hExchange]
  exact ⟨rfl, rfl, strconvQuote_ne env.unicode err⟩

/-- Witness of amended C5: the exchange fails and carries a response with
answers, which leaves no trace in the outcome. -/
theorem executeDNSRequest_exchangeError_witness :
    executeDNSRequest
      (stubEnv none (.failed (some { Answer := [⟨"x.", "x"⟩] }) 5 "connection reset"))
      { Fields := [{ Name := "old" }] } 1 "a" "example.com" =
      { ok := false,
        messageEmbed := { Fields := [{
          Name := "Unknown error while executing the DNS request:",
          Value := strconvQuote plainTables "connection reset",
          Inline := true }] },
        exchanged := [(newMessage "example.com" 1, dNSServer)] } :=
  (executeDNSRequest_exchangeError
    (stubEnv none (.failed (some { Answer := [⟨"x.", "x"⟩] }) 5 "connection reset"))
    { Fields := [{ Name := "old" }] } 1 "a" "example.com" "example.com"
    (some { Answer := [⟨"x.", "x"⟩] }) 5 "connection reset" rfl rfl).1

/-- C7: whatever the inputs, the embed held before and the behaviour of the
collaborators, after `executeDNSRequest` the fields of the embed are either one
single error or status field (inline, with one of the four status titles) and
the call returned false, or one field per answer record of a reply with at least
one record and the call returned true; the fields and the returned flag do not
depend on the embed held before, so no earlier field remains. -/
theorem executeDNSRequest_sink_invariant (env : Env) (messageEmbed : MessageEmbed)
    (dNSMessageType : Nat) (dNSMessageTypeString domain : String) :
    (((executeDNSRequest env messageEmbed dNSMessageType dNSMessageTypeString domain).ok = false ∧
      ∃ field,
        (executeDNSRequest env messageEmbed dNSMessageType dNSMessageTypeString
          domain).messageEmbed.Fields = [field] ∧
        field.Inline = true ∧ field.Name ∈ statusTitles) ∨
     ((executeDNSRequest env messageEmbed dNSMessageType dNSMessageTypeString domain).ok = true ∧
      ∃ encoded response duration,
        env.ToASCII domain = (encoded, none) ∧
        env.Exchange (newMessage encoded dNSMessageType) dNSServer = .replied response duration ∧
        (executeDNSRequest env messageEmbed dNSMessageType dNSMessageTypeString
          domain).messageEmbed.Fields = response.Answer.map answerField ∧
        1 ≤ (executeDNSRequest env messageEmbed dNSMessageType dNSMessageTypeString
          domain).messageEmbed.Fields.length)) ∧
    ∀ other : MessageEmbed,
      (executeDNSRequest env other dNSMessageType dNSMessageTypeString domain).ok
        = (executeDNSRequest env messageEmbed dNSMessageType dNSMessageTypeString domain).ok ∧
      (executeDNSRequest env other dNSMessageType dNSMessageTypeString domain).messageEmbed.Fields
        = (executeDNSRequest env messageEmbed dNSMessageType dNSMessageTypeString
            domain).messageEmbed.Fields := by
  rcases executeDNSRequest_cases env dNSMessageType domain with
    ⟨returned, err, hE⟩ | ⟨encoded, response, duration, err, hE, hX⟩ |
    ⟨encoded, response, duration, hE, hX⟩
  · constructor
    · left
      rw [executeDNSRequest_rejected env messageEmbed _ _ _ returned err hE]
      exact ⟨rfl, _, rfl, rfl, by simp [statusTitles]⟩
    · intro other
      rw [executeDNSRequest_rejected env messageEmbed _ _ _ returned err hE,
        executeDNSRequest_rejected env other _ _ _ returned err hE]
      exact ⟨rfl, rfl⟩
  · constructor
    · left
      rw [executeDNSRequest_failed env messageEmbed _ _ _ encoded response duration err hE hX]
      exact ⟨rfl, _, rfl, rfl, by simp [statusTitles]⟩
    · intro other
      rw [executeDNSRequest_failed env messageEmbed _ _ _ encoded response duration err hE hX,
        executeDNSRequest_failed env other _ _ _ encoded response duration err hE hX]
      exact ⟨rfl, rfl⟩
  · constructor
    · rw [executeDNSRequest_replied env messageEmbed _ _ _ encoded response duration hE hX]
      by_cases hc : response.Rcode = 0
      · by_cases hp : 0 < response.Answer.length
        · right
          rw [if_pos hc, if_pos hp]
          refine ⟨rfl, encoded, response, duration, hE, hX, rfl, ?_⟩
          simpa using hp
        · left
          rw [if_pos hc, if_neg hp]
          exact ⟨rfl, _, rfl, rfl, by simp [statusTitles]⟩
      · left
        rw [if_neg hc]
        exact ⟨rfl, _, rfl, rfl, by simp [statusTitles]⟩
    · intro other
      rw [executeDNSRequest_replied env messageEmbed _ _ _ encoded response duration hE hX,
        executeDNSRequest_replied env other _ _ _ encoded response duration hE hX]
      split_ifs <;> exact ⟨rfl, rfl⟩

/-- C8: whenever `executeDNSRequest` returns true, the exchange was answered and
the footer of the embed is a fresh footer whose text is "Got answer in ",
the rendering of the duration the exchange reported, and "."; the footer held
before is gone. -/
theorem executeDNSRequest_footer (env : Env) (messageEmbed : MessageEmbed)
    (dNSMessageType : Nat) (dNSMessageTypeString domain : String)
    (hOk : (executeDNSRequest env messageEmbed dNSMessageType dNSMessageTypeString
      domain).ok = true) :
    ∃ encoded response duration,
      env.ToASCII domain = (encoded, none) ∧
      env.Exchange (newMessage encoded dNSMessageType) dNSServer = .replied response duration ∧
      (executeDNSRequest env messageEmbed dNSMessageType dNSMessageTypeString
        domain).messageEmbed.Footer
        = some { Text := "Got answer in " ++ env.durationString duration ++ ".",
                 IconURL := "", ProxyIconURL := "" } ∧
      Sprintf1 dNSDurationFormat 'v' (env.durationString duration)
        = "Got answer in " ++ env.durationString duration ++ "." := by
  rcases executeDNSRequest_cases env dNSMessageType domain with
    ⟨returned, err, hE⟩ | ⟨encoded, response, duration, err, hE, hX⟩ |
    ⟨encoded, response, duration, hE, hX⟩
  · rw [executeDNSRequest_rejected env messageEmbed _ _ _ returned err hE] at hOk
    exact absurd hOk (by simp)
  · rw [executeDNSRequest_failed env messageEmbed _ _ _ encoded response duration err hE hX] at hOk
    exact absurd hOk (by simp)
  · refine ⟨encoded, response, duration, hE, hX, ?_, Sprintf1_dNSDurationFormat _⟩
    rw [executeDNSRequest_replied env messageEmbed _ _ _ encoded response duration hE hX] at hOk ⊢
    by_cases hc : response.Rcode = 0
    · by_cases hp : 0 < response.Answer.length
      · rw [if_pos hc, if_pos hp]
      · rw [if_pos hc, if_neg hp] at hOk
        exact absurd hOk (by simp)
    · rw [if_neg hc] at hOk
      exact absurd hOk (by simp)

/-- Witness of C8: a successful run on an embed that already had a footer with an
icon. -/
theorem executeDNSRequest_footer_witness :
    (executeDNSRequest (stubEnv none (.replied { Answer := [⟨"example.com.", "a"⟩] } 12))
      { Footer := some { Text := "old footer", IconURL := "icon" } } 1 "a" "example.com").ok = true ∧
    ∃ encoded response duration,
      (stubEnv none (.replied { Answer := [⟨"example.com.", "a"⟩] } 12)).ToASCII "example.com"
        = (encoded, none) ∧
      (stubEnv none (.replied { Answer := [⟨"example.com.", "a"⟩] } 12)).Exchange
        (newMessage encoded 1) dNSServer = .replied response duration ∧
      (executeDNSRequest (stubEnv none (.replied { Answer := [⟨"example.com.", "a"⟩] } 12))
        { Footer := some { Text := "old footer", IconURL := "icon" } } 1 "a"
        "example.com").messageEmbed.Footer
        = some { Text := "Got answer in "
                   ++ (stubEnv none (.replied { Answer := [⟨"example.com.", "a"⟩] } 12)).durationString
                        duration ++ ".",
                 IconURL := "", ProxyIconURL := "" } ∧
      Sprintf1 dNSDurationFormat 'v'
          ((stubEnv none (.replied { Answer := [⟨"example.com.", "a"⟩] } 12)).durationString duration)
        = "Got answer in "
            ++ (stubEnv none (.replied { Answer := [⟨"example.com.", "a"⟩] } 12)).durationString
                 duration ++ "." :=
  ⟨by decide,
   executeDNSRequest_footer (stubEnv none (.replied { Answer := [⟨"example.com.", "a"⟩] } 12))
    { Footer := some { Text := "old footer", IconURL := "icon" } } 1 "a" "example.com"
    (by decide)⟩

/-- C9: run `executeDNSRequest` once, then again on the embed the first run left,
against a client that gives the same response and error for every query and may
differ in the duration only.  Both runs return the same flag and leave the same
fields, title and description; after a failed first run the two embeds are
equal, and after a successful one they differ at most in the elapsed time
inside the footer text. -/
theorem executeDNSRequest_idempotent (env : Env) (again : Msg → String → ExchangeResult)
    (messageEmbed : MessageEmbed) (dNSMessageType : Nat)
    (dNSMessageTypeString domain : String)
    (hSame : ∀ message address,
      (again message address).eraseDuration = (env.Exchange message address).eraseDuration) :
    (executeDNSRequest { env with Exchange := again }
      (executeDNSRequest env messageEmbed dNSMessageType dNSMessageTypeString domain).messageEmbed
      dNSMessageType dNSMessageTypeString domain).ok
      = (executeDNSRequest env messageEmbed dNSMessageType dNSMessageTypeString domain).ok ∧
    (executeDNSRequest { env with Exchange := again }
      (executeDNSRequest env messageEmbed dNSMessageType dNSMessageTypeString domain).messageEmbed
      dNSMessageType dNSMessageTypeString domain).messageEmbed.Fields
      = (executeDNSRequest env messageEmbed dNSMessageType dNSMessageTypeString
          domain).messageEmbed.Fields ∧
    (executeDNSRequest { env with Exchange := again }
      (executeDNSRequest env messageEmbed dNSMessageType dNSMessageTypeString domain).messageEmbed
      dNSMessageType dNSMessageTypeString domain).messageEmbed.Title
      = (executeDNSRequest env messageEmbed dNSMessageType dNSMessageTypeString
          domain).messageEmbed.Title ∧
    (executeDNSRequest { env with Exchange := again }
      (executeDNSRequest env messageEmbed dNSMessageType dNSMessageTypeString domain).messageEmbed
      dNSMessageType dNSMessageTypeString domain).messageEmbed.Description
      = (executeDNSRequest env messageEmbed dNSMessageType dNSMessageTypeString
          domain).messageEmbed.Description ∧
    (executeDNSRequest { env with Exchange := again }
      (executeDNSRequest env messageEmbed dNSMessageType dNSMessageTypeString domain).messageEmbed
      dNSMessageType dNSMessageTypeString domain).exchanged
      = (executeDNSRequest env messageEmbed dNSMessageType dNSMessageTypeString domain).exchanged ∧
    ((executeDNSRequest env messageEmbed dNSMessageType dNSMessageTypeString domain).ok = false →
      (executeDNSRequest { env with Exchange := again }
        (executeDNSRequest env messageEmbed dNSMessageType dNSMessageTypeString domain).messageEmbed
        dNSMessageType dNSMessageTypeString domain).messageEmbed
        = (executeDNSRequest env messageEmbed dNSMessageType dNSMessageTypeString
            domain).messageEmbed) ∧
    ((executeDNSRequest env messageEmbed dNSMessageType dNSMessageTypeString domain).ok = true →
      ∃ first second : Int,
        (executeDNSRequest env messageEmbed dNSMessageType dNSMessageTypeString
          domain).messageEmbed.Footer
          = some { Text := "Got answer in " ++ env.durationString first ++ "." } ∧
        (executeDNSRequest { env with Exchange := again }
          (executeDNSRequest env messageEmbed dNSMessageType dNSMessageTypeString
            domain).messageEmbed
          dNSMessageType dNSMessageTypeString domain).messageEmbed.Footer
          = some { Text := "Got answer in " ++ env.durationString second ++ "." }) := by
  rcases executeDNSRequest_cases env dNSMessageType domain with
    ⟨returned, err, hE⟩ | ⟨encoded, response, duration, err, hE, hX⟩ |
    ⟨encoded, response, duration, hE, hX⟩
  · have hE2 : ({ env with Exchange := again } : Env).ToASCII domain = (returned, some err) := hE
    rw [executeDNSRequest_rejected _ _ _ _ _ returned err hE2,
      executeDNSRequest_rejected env messageEmbed _ _ _ returned err hE]
    simp
  · have hE2 : ({ env with Exchange := again } : Env).ToASCII domain = (encoded, none) := hE
    have h := hSame (newMessage encoded dNSMessageType) dNSServer
    rw [hX] at h
    rcases hA : again (newMessage encoded dNSMessageType) dNSServer with
      ⟨response2, duration2, err2⟩ | ⟨response2, duration2⟩
    · rw [hA] at h
      simp only [ExchangeResult.eraseDuration, ExchangeResult.failed.injEq, true_and] at h
      obtain ⟨hr, he⟩ := h
      subst he
      have hX2 : ({ env with Exchange := again } : Env).Exchange
          (newMessage encoded dNSMessageType) dNSServer = .failed response2 duration2 err2 := hA
      rw [executeDNSRequest_failed _ _ _ _ _ encoded response2 duration2 err2 hE2 hX2,
        executeDNSRequest_failed env messageEmbed _ _ _ encoded response duration err2 hE hX]
      simp
    · rw [hA] at h
      simp [ExchangeResult.eraseDuration] at h
  · have hE2 : ({ env with Exchange := again } : Env).ToASCII domain = (encoded, none) := hE
    have h := hSame (newMessage encoded dNSMessageType) dNSServer
    rw [hX] at h
    rcases hA : again (newMessage encoded dNSMessageType) dNSServer with
      ⟨response2, duration2, err2⟩ | ⟨response2, duration2⟩
    · rw [hA] at h
      simp [ExchangeResult.eraseDuration] at h
    · rw [hA] at h
      simp only [ExchangeResult.eraseDuration, ExchangeResult.replied.injEq, and_true] at h
      subst h
      have hX2 : ({ env with Exchange := again } : Env).Exchange
          (newMessage encoded dNSMessageType) dNSServer = .replied response2 duration2 := hA
      rw [executeDNSRequest_replied _ _ _ _ _ encoded response2 duration2 hE2 hX2,
        executeDNSRequest_replied env messageEmbed _ _ _ encoded response2 duration hE hX]
      by_cases hc : response2.Rcode = 0
      · by_cases hp : 0 < response2.Answer.length
        · simp only [if_pos hc, if_pos hp]
          exact ⟨trivial, trivial, trivial, trivial, trivial, by simp,
            fun _ => ⟨duration, duration2, rfl, rfl⟩⟩
        · simp only [if_pos hc, if_neg hp]
          simp
      · simp only [if_neg hc]
        simp

/-- Witness of C9: a successful first run taking 12ns and a second run against a
client that gives the same reply after 99ns. -/
theorem executeDNSRequest_idempotent_witness :
    (executeDNSRequest
      { stubEnv none (.replied { Answer := [⟨"example.com.", "a"⟩] } 12) with
        Exchange := fun _ _ => .replied { Answer := [⟨"example.com.", "a"⟩] } 99 }
      (executeDNSRequest (stubEnv none (.replied { Answer := [⟨"example.com.", "a"⟩] } 12))
        { Fields := [{ Name := "old" }] } 1 "a" "example.com").messageEmbed
      1 "a" "example.com").ok
      = (executeDNSRequest (stubEnv none (.replied { Answer := [⟨"example.com.", "a"⟩] } 12))
          { Fields := [{ Name := "old" }] } 1 "a" "example.com").ok ∧
    (executeDNSRequest
      { stubEnv none (.replied { Answer := [⟨"example.com.", "a"⟩] } 12) with
        Exchange := fun _ _ => .replied { Answer := [⟨"example.com.", "a"⟩] } 99 }
      (executeDNSRequest (stubEnv none (.replied { Answer := [⟨"example.com.", "a"⟩] } 12))
        { Fields := [{ Name := "old" }] } 1 "a" "example.com").messageEmbed
      1 "a" "example.com").messageEmbed.Fields
      = (executeDNSRequest (stubEnv none (.replied { Answer := [⟨"example.com.", "a"⟩] } 12))
          { Fields := [{ Name := "old" }] } 1 "a" "example.com").messageEmbed.Fields :=
  have h := executeDNSRequest_idempotent
    (stubEnv none (.replied { Answer := [⟨"example.com.", "a"⟩] } 12))
    (fun _ _ => .replied { Answer := [⟨"example.com.", "a"⟩] } 99)
    { Fields := [{ Name := "old" }] } 1 "a" "example.com"
    (fun _ _ => rfl)
  ⟨h.1, h.2.1⟩

/-- C10, as stated, fails: the encoded domain `example.com` followed by a
backslash and a dot ends in a dot, yet the name of the question is not that
domain itself: the final dot is escaped, so `dns.Fqdn` appends another dot. -/
theorem executeDNSRequest_question_escapedDot_counterexample :
    (stubEnv none (.replied { Answer := [⟨"x.", "x"⟩] } 5)).ToASCII escapedDotDomain
      = (escapedDotDomain, none) ∧
    escapedDotDomain.data.getLast? = some '.' ∧
    (executeDNSRequest (stubEnv none (.replied { Answer := [⟨"x.", "x"⟩] } 5)) { } 1 "a"
      escapedDotDomain).exchanged
      = [({ Question := [{ Name := escapedDotDomain ++ ".", Qtype := 1, Qclass := 1 }],
            RecursionDesired := true }, "1.1.1.1:853")] ∧
    escapedDotDomain ++ "." ≠ escapedDotDomain := by
  decide

/-- C10, amended: when normalization succeeds, `executeDNSRequest` calls `Exchange`
once, with the address "1.1.1.1:853" and a message that has recursion desired
set and exactly one question: name the fully qualified encoded domain, type the
requested record type, class INET (1).  The fully qualified name ends in a dot.
It is the encoded domain followed by a dot when the encoded domain does not end
in a dot; it is the encoded domain itself when that ends in a dot with no
backslash right before it; and for an ASCII encoded domain that ends in a dot
it is the encoded domain itself when the number of backslashes right before
the dot is even, and the encoded domain followed by a dot when it is odd. -/
theorem executeDNSRequest_question (env : Env) (messageEmbed : MessageEmbed)
    (dNSMessageType : Nat) (dNSMessageTypeString domain encoded : String)
    (hEncode : env.ToASCII domain = (encoded, none)) :
    ∃ message : Msg,
      (executeDNSRequest env messageEmbed dNSMessageType dNSMessageTypeString
        domain).exchanged = [(message, "1.1.1.1:853")] ∧
      message.Question = [{ Name := Fqdn encoded, Qtype := dNSMessageType, Qclass := 1 }] ∧
      message.RecursionDesired = true ∧
      (Fqdn encoded).data.getLast? = some '.' ∧
      (encoded.data.getLast? ≠ some '.' → Fqdn encoded = encoded ++ ".") ∧
      (encoded.data.getLast? = some '.' → escapesBeforeLast encoded = 0 →
        Fqdn encoded = encoded) ∧
      ((∀ c ∈ encoded.data, c.toNat < 128) → encoded.data.getLast? = some '.' →
        (escapesBeforeLast encoded % 2 = 0 → Fqdn encoded = encoded) ∧
        (escapesBeforeLast encoded % 2 = 1 → Fqdn encoded = encoded ++ ".")) := by
  refine ⟨newMessage encoded dNSMessageType, ?_, rfl, rfl, Fqdn_getLast encoded,
    Fqdn_of_no_dot encoded, ?_, ?_⟩
  · rcases hX : env.Exchange (newMessage encoded dNSMessageType) dNSServer with
      ⟨response, duration, err⟩ | ⟨response, duration⟩
    · rw [executeDNSRequest_failed env messageEmbed _ _ _ encoded response duration err hEncode hX]
      rfl
    · rw [executeDNSRequest_replied env messageEmbed _ _ _ encoded response duration hEncode hX]
      split_ifs <;> rfl
  · intro hDot hNone
    unfold Fqdn
    rw [if_pos (IsFqdn_of_no_escape encoded hDot hNone)]
  · intro hAscii hDot
    have hIs := IsFqdn_ascii encoded hAscii hDot
    constructor
    · intro hEven
      unfold Fqdn
      rw [hIs, if_pos (by simpa using hEven)]
    · intro hOdd
      unfold Fqdn
      have hNot : ¬ decide (escapesBeforeLast encoded % 2 = 0) = true := by
        simp only [decide_eq_true_eq]; omega
      rw [hIs, if_neg hNot]

/-- Witness of amended C10: the question sent for the type 28 and the domain
"example.com", which gets its trailing dot. -/
theorem executeDNSRequest_question_witness :
    (executeDNSRequest (stubEnv none (.failed none 5 "timeout")) { } 28 "aaaa"
      "example.com").exchanged
      = [({ Question := [{ Name := "example.com.", Qtype := 28, Qclass := 1 }],
            RecursionDesired := true }, "1.1.1.1:853")] ∧
    Fqdn "example.com" = "example.com" ++ "." :=
  match executeDNSRequest_question (stubEnv none (.failed none 5 "timeout")) { } 28 "aaaa"
    "example.com" "example.com" rfl with
  | ⟨_, _, _, _, _, hAppend, _, _⟩ => ⟨by decide, hAppend (by decide)⟩

end Discord1111Resolver
